import Mathlib

/-!
# Verification of the watermeter-server real-time core

Shallow embedding of `src/app.py` and `src/models.py` of the
watermeter-server repository: the per-meter subscription registry
(`WSManager`), the broadcast/cleanup loop, the websocket live-channel
endpoint, and the `/api/ingest` handler, together with theorems about
their behaviour.

Python floats are modelled as rationals (`Rat`), websocket connections as
natural-number identifiers, the `WSManager.active` dictionary
(`Dict[str, Set[WebSocket]]`) as an association list from meter code to a
duplicate-free list of connections, wall-clock timestamps as naturals, and
fallible effects (the database commit, each connection's `send_json`) as
explicit boolean outcomes passed in as parameters.
-/

/-- A websocket connection, identified by an id. -/
abbrev Conn := Nat

/-- The state of `WSManager.active` (app.py:68): meter code to the set of
subscribed connections; sets are kept as duplicate-free lists, dict entries
as an association list with duplicate-free keys. -/
abbrev Registry := List (String × List Conn)

namespace WSManager

/-- Python `set.add` on a duplicate-free list. -/
def setAdd (s : List Conn) (c : Conn) : List Conn :=
  if c ∈ s then s else c :: s

/-- Registry effect of `WSManager.connect` (app.py:70-72):
`self.active.setdefault(meter_code, set()).add(websocket)`. -/
def connect : Registry → String → Conn → Registry
  | [], m, c => [(m, [c])]
  | (k, s) :: rest, m, c =>
    if k = m then (k, setAdd s c) :: rest
    else (k, s) :: connect rest m c

/-- `WSManager.disconnect` (app.py:74-78): if the meter is a key, discard the
connection from its set and delete the entry when the set becomes empty. -/
def disconnect : Registry → String → Conn → Registry
  | [], _, _ => []
  | (k, s) :: rest, m, c =>
    if k = m then
      if s.erase c = [] then rest else (k, s.erase c) :: rest
    else (k, s) :: disconnect rest m c

/-- The connection set stored under a meter code; `[]` when the code is not a
key (a dict lookup that would miss). -/
def lookupSet : Registry → String → List Conn
  | [], _ => []
  | (k, s) :: rest, m => if k = m then s else lookupSet rest m

/-- The key set of the registry dictionary. -/
def keys (r : Registry) : List String := r.map Prod.fst

/-- The delivery loop of `WSManager.broadcast` (app.py:85-90): attempt
`send_json` on each connection of the snapshot in turn, catching each failure
and collecting the failed connections in `dead`. Returns the trace of
(connection, send succeeded) attempts together with the `dead` list, both in
iteration order; `sendOk` gives each connection's send outcome. -/
def broadcastPass (sendOk : Conn → Bool) : List Conn → List (Conn × Bool) × List Conn
  | [] => ([], [])
  | c :: rest =>
    let ok := sendOk c
    let r := broadcastPass sendOk rest
    ((c, ok) :: r.1, if ok then r.2 else c :: r.2)

/-- `WSManager.broadcast` (app.py:80-93): a no-op when the meter is not a key;
otherwise run the delivery pass over the snapshot and, after the pass
completes, disconnect every dead connection. Returns the attempt trace and
the updated registry; no failure escapes to the caller. -/
def broadcast (sendOk : Conn → Bool) (r : Registry) (m : String) :
    List (Conn × Bool) × Registry :=
  if m ∈ keys r then
    let pass := broadcastPass sendOk (lookupSet r m)
    (pass.1, pass.2.foldl (fun acc c => disconnect acc m c) r)
  else ([], r)

end WSManager

/-- One registry operation: a `connect`, a `disconnect`, or the pruning a
`broadcast` performs (`sendOk` gives each connection's send outcome in that
broadcast). -/
inductive RegOp where
  | connect (m : String) (c : Conn)
  | disconnect (m : String) (c : Conn)
  | broadcast (m : String) (sendOk : Conn → Bool)

/-- Apply one registry operation to the registry state. -/
def applyOp (r : Registry) : RegOp → Registry
  | .connect m c => WSManager.connect r m c
  | .disconnect m c => WSManager.disconnect r m c
  | .broadcast m sendOk => (WSManager.broadcast sendOk r m).2

/-- Run a sequence of registry operations from the empty registry. -/
def applyOps (ops : List RegOp) : Registry := ops.foldl applyOp []

/-- Structural invariant of `WSManager.active`: dictionary keys are distinct
(it models a `Dict`), and every stored set is a non-empty duplicate-free list
(it models a Python `set`, and empty sets are pruned). -/
def RegInv (r : Registry) : Prop :=
  (WSManager.keys r).Nodup ∧ ∀ p ∈ r, p.2 ≠ [] ∧ p.2.Nodup

/-- A JSON value appearing in a sample field of the `/api/ingest` payload:
a number or a string. -/
inductive PyVal where
  | num (q : Rat)
  | str (s : String)
deriving DecidableEq

/-- The idealized value of a Python float produced by `float(...)`: a finite
value kept as an exact rational, or one of the non-finite floats. -/
inductive PyNum where
  | finite (q : Rat)
  | inf
  | negInf
  | nan
deriving DecidableEq

/-- The float `0.0` as a `PyNum` literal. -/
instance : OfNat PyNum 0 := ⟨.finite 0⟩

/-- ASCII whitespace stripped by `float(...)`. -/
def isWs (c : Char) : Bool :=
  c = ' ' || c = '\t' || c = '\n' || c = '\r' || c = '\x0b' || c = '\x0c'

/-- Split a character list at the first occurrence of `x`, if any. -/
def splitAtChar (x : Char) : List Char → List Char × Option (List Char)
  | [] => ([], none)
  | c :: rest =>
    if c = x then ([], some rest)
    else
      let r := splitAtChar x rest
      (c :: r.1, r.2)

/-- Drop PEP-515 digit-group underscores. -/
def stripU (l : List Char) : List Char := l.filter (fun c => c ≠ '_')

/-- After a leading digit: digits with each underscore standing strictly
between two digits. -/
def digitGroupAux : List Char → Bool
  | [] => true
  | '_' :: c :: rest => c.isDigit && digitGroupAux rest
  | ['_'] => false
  | c :: rest => c.isDigit && digitGroupAux rest

/-- A PEP-515 digit group: non-empty, starts with a digit, and each
underscore stands between two digits. -/
def digitGroup : List Char → Bool
  | [] => false
  | c :: rest => c.isDigit && digitGroupAux rest

/-- Value of a digit list read in base 10. -/
def digitsVal (l : List Char) : Nat :=
  l.foldl (fun acc c => acc * 10 + (c.toNat - 48)) 0

/-- Value of a fraction digit group. -/
def fracVal (fp : List Char) : Rat :=
  (digitsVal (stripU fp) : Rat) / ((10 : Rat) ^ (stripU fp).length)

/-- The mantissa of a decimal float literal: `digits`, `digits.`, `.digits`
or `digits.digits`, each digit group possibly holding PEP-515 underscores. -/
def parseMantissa (l : List Char) : Option Rat :=
  match splitAtChar '.' l with
  | (ip, none) => if digitGroup ip then some (digitsVal (stripU ip)) else none
  | (ip, some fp) =>
    if ip = [] then
      if digitGroup fp then some (fracVal fp) else none
    else if fp = [] then
      if digitGroup ip then some (digitsVal (stripU ip)) else none
    else if digitGroup ip && digitGroup fp then
      some ((digitsVal (stripU ip) : Rat) + fracVal fp)
    else none

/-- The optionally signed digit group after `e` in a float literal. -/
def parseExp (l : List Char) : Option Int :=
  match l with
  | '-' :: rest =>
    if digitGroup rest then some (-(digitsVal (stripU rest) : Int)) else none
  | '+' :: rest =>
    if digitGroup rest then some ((digitsVal (stripU rest) : Int)) else none
  | _ => if digitGroup l then some ((digitsVal (stripU l) : Int)) else none

/-- An unsigned decimal float literal (already lowercased): a mantissa with
an optional `e`-exponent. -/
def parseDecimal (l : List Char) : Option Rat :=
  match splitAtChar 'e' l with
  | (mant, none) => parseMantissa mant
  | (mant, some ep) =>
    match parseMantissa mant, parseExp ep with
    | some q, some e => some (q * (10 : Rat) ^ e)
    | _, _ => none

/-- The string grammar of CPython's `float(...)`: surrounding ASCII
whitespace is stripped, then an optional sign followed — case-insensitively —
by `inf`/`infinity`, `nan`, or a decimal literal with optional fraction,
optional exponent, and PEP-515 underscores between digits. Finite values are
idealized as exact rationals (no IEEE rounding, and no overflow of huge
exponents to infinity); Unicode digit and whitespace normalization beyond
ASCII is not modelled. -/
def parsePyFloat (l0 : List Char) : Option PyNum :=
  let l1 := l0.dropWhile isWs
  let l2 := (l1.reverse.dropWhile isWs).reverse
  let sgn : Bool × List Char :=
    match l2 with
    | '-' :: rest => (true, rest)
    | '+' :: rest => (false, rest)
    | _ => (false, l2)
  let low := sgn.2.map Char.toLower
  if low = ['i', 'n', 'f'] ∨ low = ['i', 'n', 'f', 'i', 'n', 'i', 't', 'y'] then
    some (if sgn.1 then .negInf else .inf)
  else if low = ['n', 'a', 'n'] then some .nan
  else
    match parseDecimal low with
    | none => none
    | some q => some (.finite (if sgn.1 then -q else q))

/-- Python's `float(...)` builtin on a sample-field value, as used at
app.py:311-313: a JSON number coerces to itself; a string coerces by the
`float` string grammar; a non-coercible value raises `ValueError` (`none`). -/
def pyFloat : PyVal → Option PyNum
  | .num q => some (.finite q)
  | .str s => parsePyFloat s.toList

/-- A row of the `meters` table (models.py:19-44); only the columns the
ingestion path reads. -/
structure Meter where
  id : Nat
  meter_code : String
  pin : String
deriving DecidableEq

/-- A row of the `readings` table (models.py:47-60); the float columns hold
idealized Python floats. -/
structure Reading where
  meter_id : Nat
  flow_lps : PyNum
  liters_delta : PyNum
  liters_total : PyNum
  timestamp : Nat
deriving DecidableEq

/-- The durable database state. -/
structure DB where
  meters : List Meter
  readings : List Reading
deriving DecidableEq

/-- The whole server state the ingestion path touches: the database and the
`ws_manager` registry. -/
structure World where
  db : DB
  registry : Registry
deriving DecidableEq

/-- The JSON body of a `/api/ingest` request (`data : dict`, app.py:303):
each key may be absent. -/
structure IngestPayload where
  meter_code : Option String
  pin : Option String
  flow_lps : Option PyVal
  liters_delta : Option PyVal
  liters_total : Option PyVal
deriving DecidableEq

/-- `data.get(field, 0)` (app.py:311-313): a missing sample field defaults to
the number `0` before coercion. -/
def getField (v : Option PyVal) : PyVal := v.getD (.num 0)

/-- The JSON payload broadcast to subscribers after a successful ingestion
(app.py:326-332). -/
structure Event where
  meter_code : String
  flow_lps : PyNum
  liters_delta : PyNum
  liters_total : PyNum
  timestamp : Nat
deriving DecidableEq

/-- How a call to `ingest` can fail: the 403 `HTTPException` of app.py:309,
an unhandled `ValueError` from `float(...)` at app.py:311-313, or a
persistence failure in `db.add`/`db.commit` at app.py:323-324. -/
inductive IngestError where
  | authError
  | coerceError
  | storageError
deriving DecidableEq

/-- The HTTP status each failure surfaces as: the explicit 403 for the auth
rejection; an unhandled exception becomes a 500 server error. -/
def IngestError.status : IngestError → Nat
  | .authError => 403
  | .coerceError => 500
  | .storageError => 500

/-- `db.query(Meter).filter(Meter.meter_code == meter_code).first()`
(app.py:307). -/
def findMeter (db : DB) (code : String) : Option Meter :=
  db.meters.find? (fun m => m.meter_code == code)

/-- The meter/pin check of app.py:307-309 as a boolean: true exactly when the
payload names a stored meter and carries its pin. -/
def authCheck (db : DB) (data : IngestPayload) : Bool :=
  match data.meter_code with
  | none => false
  | some code =>
    match findMeter db code with
    | none => false
    | some meter => data.pin == some meter.pin

/-- `ingest` (app.py:302-337). `commitOk` models whether the persistence
write (`db.add` + `db.commit`) succeeds; `sendOk` models each connection's
`send_json` outcome inside the broadcast; `now` is `datetime.now()`.
Returns the handler's outcome — on success the broadcast payload and the
trace of delivery attempts, on failure which exception was raised — paired
with the resulting durable server state. -/
def ingest (commitOk : Bool) (sendOk : Conn → Bool) (now : Nat)
    (w : World) (data : IngestPayload) :
    Except IngestError (Event × List (Conn × Bool)) × World :=
  match data.meter_code with
  | none => (.error .authError, w)
  | some code =>
    match findMeter w.db code with
    | none => (.error .authError, w)
    | some meter =>
      if data.pin = some meter.pin then
        match pyFloat (getField data.flow_lps) with
        | none => (.error .coerceError, w)
        | some f =>
          match pyFloat (getField data.liters_delta) with
          | none => (.error .coerceError, w)
          | some d =>
            match pyFloat (getField data.liters_total) with
            | none => (.error .coerceError, w)
            | some t =>
              if commitOk then
                let reading : Reading := ⟨meter.id, f, d, t, now⟩
                let db2 : DB := ⟨w.db.meters, w.db.readings ++ [reading]⟩
                let evt : Event := ⟨code, f, d, t, now⟩
                let res := WSManager.broadcast sendOk w.registry code
                (.ok (evt, res.1), ⟨db2, res.2⟩)
              else (.error .storageError, w)
      else (.error .authError, w)

/-- The initial JSON frame of the live channel (app.py:107-114). -/
structure InitEvent where
  status : String
  meter_code : String
  timestamp : Nat
  flow_lps : PyNum
  liters_delta : PyNum
  liters_total : PyNum
deriving DecidableEq

/-- An observable action of the live-channel open sequence: accepting the
websocket, registering it in the registry, or sending it a frame. -/
inductive WSAction where
  | accept (c : Conn)
  | register (m : String) (c : Conn)
  | send (c : Conn) (e : InitEvent)
deriving DecidableEq

/-- The open sequence of `websocket_endpoint` (app.py:102-114), up to the
keep-alive loop: `ws_manager.connect` — which `accept`s the websocket and
then registers it — followed by the initial `send_json` frame. Returns the
action trace in execution order and the updated registry. The endpoint takes
no database argument: it consults no store. -/
def websocket_endpoint (now : Nat) (r : Registry) (m : String) (c : Conn) :
    List WSAction × Registry :=
  let r2 := WSManager.connect r m c
  let evt : InitEvent := ⟨"connected", m, now, 0, 0, 0⟩
  ([.accept c, .register m c, .send c evt], r2)

/-- Whether an action is the registration of connection `c` under meter `m`. -/
def isRegisterAct (m : String) (c : Conn) : WSAction → Bool
  | .register m2 c2 => m2 == m && c2 == c
  | _ => false

/-- Whether an action is a send to connection `c`. -/
def isSendAct (c : Conn) : WSAction → Bool
  | .send c2 _ => c2 == c
  | _ => false

/-- Every registration of `(m, c)` in the trace comes strictly after every
send to `c`. -/
def sendPrecedesRegister (acts : List WSAction) (m : String) (c : Conn) : Prop :=
  ∀ i j : Fin acts.length,
    isRegisterAct m c (acts.get i) → isSendAct c (acts.get j) → (j : Nat) < (i : Nat)

/-- Every registration of `(m, c)` in the trace comes strictly before every
send to `c`. -/
def registerPrecedesSend (acts : List WSAction) (m : String) (c : Conn) : Prop :=
  ∀ i j : Fin acts.length,
    isRegisterAct m c (acts.get i) → isSendAct c (acts.get j) → (i : Nat) < (j : Nat)

/-- The first frame sent to connection `c` in a trace, if any. -/
def firstSentTo (c : Conn) : List WSAction → Option InitEvent
  | [] => none
  | .send c2 e :: rest => if c2 = c then some e else firstSentTo c rest
  | _ :: rest => firstSentTo c rest

namespace WSManager

theorem regInv_nil : RegInv [] := by
  constructor
  · simp [keys]
  · intro p hp; cases hp

theorem regInv_cons {k : String} {s : List Conn} {rest : Registry}
    (h : RegInv ((k, s) :: rest)) : RegInv rest := by
  obtain ⟨hk, hs⟩ := h
  refine ⟨?_, fun p hp => hs p (List.mem_cons_of_mem _ hp)⟩
  simpa [keys] using hk.of_cons

theorem setAdd_ne_nil (s : List Conn) (c : Conn) : setAdd s c ≠ [] := by
  unfold setAdd
  split
  · rename_i h
    intro hnil; subst hnil; cases h
  · simp

theorem setAdd_nodup {s : List Conn} (h : s.Nodup) (c : Conn) :
    (setAdd s c).Nodup := by
  unfold setAdd
  split
  · exact h
  · rename_i hc
    exact List.nodup_cons.mpr ⟨hc, h⟩

theorem mem_setAdd (s : List Conn) (c : Conn) : c ∈ setAdd s c := by
  unfold setAdd
  split
  · assumption
  · exact List.mem_cons_self c s

theorem keys_connect (r : Registry) (m : String) (c : Conn) :
    keys (connect r m c) = if m ∈ keys r then keys r else keys r ++ [m] := by
  induction r with
  | nil => simp [connect, keys]
  | cons p rest ih =>
    obtain ⟨k, s⟩ := p
    by_cases hk : k = m
    · subst hk
      simp [connect, keys]
    · simp only [connect, if_neg hk, keys, List.map_cons]
      simp only [keys] at ih
      rw [ih]
      by_cases hm : m ∈ rest.map Prod.fst
      · simp [hm, Ne.symm hk]
      · simp [hm, Ne.symm hk]

theorem sets_connect (m : String) (c : Conn) :
    ∀ {r : Registry}, (∀ p ∈ r, p.2 ≠ [] ∧ p.2.Nodup) →
      ∀ p ∈ connect r m c, p.2 ≠ [] ∧ p.2.Nodup := by
  intro r
  induction r with
  | nil =>
    intro _ p hp
    simp only [connect, List.mem_singleton] at hp
    subst hp
    exact ⟨by simp, by simp⟩
  | cons q rest ih =>
    obtain ⟨k, s⟩ := q
    intro hs p hp
    have htail : ∀ p ∈ rest, p.2 ≠ [] ∧ p.2.Nodup :=
      fun p hp => hs p (List.mem_cons_of_mem _ hp)
    by_cases hk : k = m
    · subst hk
      simp only [connect, if_pos rfl] at hp
      rcases List.mem_cons.mp hp with hp | hp
      · subst hp
        exact ⟨setAdd_ne_nil s c, setAdd_nodup (hs (k, s) (List.mem_cons_self _ _)).2 c⟩
      · exact htail p hp
    · simp only [connect, if_neg hk] at hp
      rcases List.mem_cons.mp hp with hp | hp
      · subst hp
        exact hs (k, s) (List.mem_cons_self _ _)
      · exact ih htail p hp

theorem regInv_connect {r : Registry} (h : RegInv r) (m : String) (c : Conn) :
    RegInv (connect r m c) := by
  refine ⟨?_, sets_connect m c h.2⟩
  rw [keys_connect]
  by_cases hm : m ∈ keys r
  · simpa [hm] using h.1
  · simp only [if_neg hm]
    simp [List.nodup_append, h.1, hm]

theorem keys_disconnect_sublist (r : Registry) (m : String) (c : Conn) :
    (keys (disconnect r m c)).Sublist (keys r) := by
  induction r with
  | nil => simp [disconnect, keys]
  | cons q rest ih =>
    obtain ⟨k, s⟩ := q
    by_cases hk : k = m
    · subst hk
      simp only [disconnect, if_pos rfl]
      by_cases he : s.erase c = []
      · simp only [if_pos he, keys, List.map_cons]
        exact (List.Sublist.refl _).cons _
      · simp only [if_neg he, keys, List.map_cons]
        exact List.Sublist.refl _
    · simp only [disconnect, if_neg hk, keys, List.map_cons]
      exact ih.cons₂ _

theorem sets_disconnect (m : String) (c : Conn) :
    ∀ {r : Registry}, (∀ p ∈ r, p.2 ≠ [] ∧ p.2.Nodup) →
      ∀ p ∈ disconnect r m c, p.2 ≠ [] ∧ p.2.Nodup := by
  intro r
  induction r with
  | nil => intro _ p hp; simp [disconnect] at hp
  | cons q rest ih =>
    obtain ⟨k, s⟩ := q
    intro hs p hp
    have htail : ∀ p ∈ rest, p.2 ≠ [] ∧ p.2.Nodup :=
      fun p hp => hs p (List.mem_cons_of_mem _ hp)
    by_cases hk : k = m
    · subst hk
      simp only [disconnect, if_pos rfl] at hp
      by_cases he : s.erase c = []
      · rw [if_pos he] at hp
        exact htail p hp
      · rw [if_neg he] at hp
        rcases List.mem_cons.mp hp with hp | hp
        · subst hp
          exact ⟨he, ((hs (k, s) (List.mem_cons_self _ _)).2).erase c⟩
        · exact htail p hp
    · simp only [disconnect, if_neg hk] at hp
      rcases List.mem_cons.mp hp with hp | hp
      · subst hp
        exact hs (k, s) (List.mem_cons_self _ _)
      · exact ih htail p hp

theorem regInv_disconnect {r : Registry} (h : RegInv r) (m : String) (c : Conn) :
    RegInv (disconnect r m c) :=
  ⟨(keys_disconnect_sublist r m c).nodup h.1, sets_disconnect m c h.2⟩

theorem regInv_foldl_disconnect (m : String) :
    ∀ (dead : List Conn) (r : Registry), RegInv r →
      RegInv (dead.foldl (fun acc c => disconnect acc m c) r)
  | [], _, h => h
  | c :: rest, r, h =>
    regInv_foldl_disconnect m rest (disconnect r m c) (regInv_disconnect h m c)

theorem regInv_broadcast {r : Registry} (h : RegInv r) (sendOk : Conn → Bool)
    (m : String) : RegInv (broadcast sendOk r m).2 := by
  by_cases hm : m ∈ keys r
  · simp only [broadcast, if_pos hm]
    exact regInv_foldl_disconnect m _ r h
  · simp only [broadcast, if_neg hm]
    exact h

theorem regInv_applyOp {r : Registry} (h : RegInv r) (op : RegOp) :
    RegInv (applyOp r op) := by
  cases op with
  | connect m c => exact regInv_connect h m c
  | disconnect m c => exact regInv_disconnect h m c
  | broadcast m sendOk => exact regInv_broadcast h sendOk m

theorem regInv_foldl_ops :
    ∀ (ops : List RegOp) (r : Registry), RegInv r → RegInv (ops.foldl applyOp r)
  | [], _, h => h
  | op :: rest, r, h => regInv_foldl_ops rest (applyOp r op) (regInv_applyOp h op)

theorem regInv_applyOps (ops : List RegOp) : RegInv (applyOps ops) :=
  regInv_foldl_ops ops [] regInv_nil

theorem mem_keys_cons {m k : String} {s : List Conn} {rest : Registry} :
    m ∈ keys ((k, s) :: rest) ↔ m = k ∨ m ∈ keys rest := by
  simp [keys]

theorem lookupSet_eq_nil_of_not_mem_keys {m : String} :
    ∀ {r : Registry}, m ∉ keys r → lookupSet r m = [] := by
  intro r
  induction r with
  | nil => intro _; rfl
  | cons q rest ih =>
    obtain ⟨k, s⟩ := q
    intro h
    rw [mem_keys_cons] at h
    push_neg at h
    simp only [lookupSet, if_neg (Ne.symm h.1)]
    exact ih h.2

theorem mem_keys_iff_lookupSet (m : String) :
    ∀ {r : Registry}, RegInv r → (m ∈ keys r ↔ lookupSet r m ≠ []) := by
  intro r
  induction r with
  | nil => intro _; simp [keys, lookupSet]
  | cons q rest ih =>
    obtain ⟨k, s⟩ := q
    intro h
    by_cases hk : k = m
    · subst hk
      have hne := (h.2 (k, s) (List.mem_cons_self _ _)).1
      simp [mem_keys_cons, lookupSet, hne]
    · simp only [lookupSet, if_neg hk]
      rw [mem_keys_cons]
      constructor
      · rintro (rfl | h1)
        · exact absurd rfl hk
        · exact (ih (regInv_cons h)).mp h1
      · intro h1
        exact Or.inr ((ih (regInv_cons h)).mpr h1)

theorem lookupSet_disconnect (m : String) (c : Conn) :
    ∀ {r : Registry}, RegInv r →
      lookupSet (disconnect r m c) m = (lookupSet r m).erase c := by
  intro r
  induction r with
  | nil => intro _; rfl
  | cons q rest ih =>
    obtain ⟨k, s⟩ := q
    intro h
    by_cases hk : k = m
    · subst hk
      by_cases he : s.erase c = []
      · have hknotin : k ∉ keys rest := (List.nodup_cons.mp h.1).1
        calc lookupSet (disconnect ((k, s) :: rest) k c) k
            = lookupSet rest k := by simp [disconnect, he]
          _ = [] := lookupSet_eq_nil_of_not_mem_keys hknotin
          _ = (lookupSet ((k, s) :: rest) k).erase c := by simp [lookupSet, he]
      · calc lookupSet (disconnect ((k, s) :: rest) k c) k
            = s.erase c := by simp [disconnect, he, lookupSet]
          _ = (lookupSet ((k, s) :: rest) k).erase c := by simp [lookupSet]
    · have hstep : disconnect ((k, s) :: rest) m c = (k, s) :: disconnect rest m c := by
        simp [disconnect, hk]
      rw [hstep]
      simp only [lookupSet, if_neg hk]
      exact ih (regInv_cons h)

theorem lookupSet_foldl_disconnect (m : String) :
    ∀ (dead : List Conn) (r : Registry), RegInv r →
      lookupSet (dead.foldl (fun acc c => disconnect acc m c) r) m =
        dead.foldl List.erase (lookupSet r m)
  | [], _, _ => rfl
  | c :: rest, r, h => by
    simp only [List.foldl_cons]
    rw [lookupSet_foldl_disconnect m rest (disconnect r m c) (regInv_disconnect h m c),
        lookupSet_disconnect m c h]

theorem lookupSet_nodup (m : String) :
    ∀ {r : Registry}, RegInv r → (lookupSet r m).Nodup := by
  intro r
  induction r with
  | nil => intro _; simp [lookupSet]
  | cons q rest ih =>
    obtain ⟨k, s⟩ := q
    intro h
    by_cases hk : k = m
    · simp only [lookupSet, if_pos hk]
      exact (h.2 (k, s) (List.mem_cons_self _ _)).2
    · simp only [lookupSet, if_neg hk]
      exact ih (regInv_cons h)

theorem not_mem_foldl_erase_of_not_mem {c : Conn} :
    ∀ (dead : List Conn) {s : List Conn}, c ∉ s → c ∉ dead.foldl List.erase s
  | [], _, h => h
  | _ :: rest, _, h =>
    not_mem_foldl_erase_of_not_mem rest (fun hm => h (List.mem_of_mem_erase hm))

theorem mem_foldl_erase {c : Conn} :
    ∀ (dead : List Conn) {s : List Conn}, s.Nodup → c ∈ s → c ∉ dead →
      c ∈ dead.foldl List.erase s
  | [], _, _, hc, _ => hc
  | d :: rest, s, hnd, hc, hd => by
    simp only [List.foldl_cons]
    have hcd : c ≠ d := fun h => hd (h ▸ List.mem_cons_self _ _)
    exact mem_foldl_erase rest (hnd.erase d) ((List.mem_erase_of_ne hcd).mpr hc)
      (fun h => hd (List.mem_cons_of_mem _ h))

theorem not_mem_foldl_erase {c : Conn} :
    ∀ (dead : List Conn) {s : List Conn}, s.Nodup → c ∈ dead →
      c ∉ dead.foldl List.erase s
  | [], _, _, hc => absurd hc (List.not_mem_nil c)
  | d :: rest, s, hnd, hc => by
    simp only [List.foldl_cons]
    by_cases hcd : c = d
    · subst hcd
      refine not_mem_foldl_erase_of_not_mem rest (fun hm => ?_)
      exact absurd rfl ((hnd.mem_erase_iff.mp hm).1)
    · exact not_mem_foldl_erase rest (hnd.erase d)
        ((List.mem_cons.mp hc).resolve_left hcd)

theorem broadcastPass_fst (sendOk : Conn → Bool) :
    ∀ l : List Conn, (broadcastPass sendOk l).1 = l.map (fun c => (c, sendOk c))
  | [] => rfl
  | c :: rest => by
    show (c, sendOk c) :: (broadcastPass sendOk rest).1 = _
    rw [broadcastPass_fst sendOk rest]
    rfl

theorem broadcastPass_snd (sendOk : Conn → Bool) :
    ∀ l : List Conn, (broadcastPass sendOk l).2 = l.filter (fun c => !(sendOk c))
  | [] => rfl
  | c :: rest => by
    show (if sendOk c then (broadcastPass sendOk rest).2
          else c :: (broadcastPass sendOk rest).2) = _
    rw [broadcastPass_snd sendOk rest]
    by_cases h : sendOk c
    · simp [h, List.filter_cons]
    · simp [h, List.filter_cons]

theorem disconnect_no_op (m : String) (c : Conn) :
    ∀ {r : Registry}, (∀ p ∈ r, p.2 ≠ [] ∧ p.2.Nodup) → c ∉ lookupSet r m →
      disconnect r m c = r := by
  intro r
  induction r with
  | nil => intro _ _; rfl
  | cons q rest ih =>
    obtain ⟨k, s⟩ := q
    intro hs hc
    by_cases hk : k = m
    · subst hk
      have hcs : c ∉ s := by simpa [lookupSet] using hc
      have he : s.erase c = s := List.erase_of_not_mem hcs
      simp [disconnect, he, (hs (k, s) (List.mem_cons_self _ _)).1]
    · have hc2 : c ∉ lookupSet rest m := by
        simpa [lookupSet, hk] using hc
      simp [disconnect, hk,
        ih (fun p hp => hs p (List.mem_cons_of_mem _ hp)) hc2]

theorem setAdd_idem (s : List Conn) (c : Conn) :
    setAdd (setAdd s c) c = setAdd s c := by
  show (if c ∈ setAdd s c then setAdd s c else c :: setAdd s c) = setAdd s c
  rw [if_pos (mem_setAdd s c)]

theorem connect_idem (m : String) (c : Conn) :
    ∀ r : Registry, connect (connect r m c) m c = connect r m c := by
  intro r
  induction r with
  | nil => simp [connect, setAdd]
  | cons q rest ih =>
    obtain ⟨k, s⟩ := q
    by_cases hk : k = m
    · subst hk
      simp [connect, setAdd_idem]
    · simp [connect, hk, ih]

end WSManager

/-- **C2.** For every sequence of register (`WSManager.connect`) and
unregister (`WSManager.disconnect`) calls starting from the empty registry —
including the unregistrations that `broadcast` performs when pruning dead
connections — a meter identifier is a key of the registry mapping if and only
if its connection set is non-empty. -/
theorem registry_key_iff_nonempty (ops : List RegOp) (m : String) :
    m ∈ WSManager.keys (applyOps ops) ↔ WSManager.lookupSet (applyOps ops) m ≠ [] :=
  WSManager.mem_keys_iff_lookupSet m (WSManager.regInv_applyOps ops)

/-- **C8.** Register is idempotent for the same (meter, connection) pair —
registering an already-registered connection leaves the registry unchanged —
and unregister is idempotent: unregistering a connection that is not
registered is a state-preserving no-op, and a second unregister of the same
connection changes nothing further. -/
theorem registry_register_unregister_idempotent (r : Registry) (m : String)
    (c : Conn) (h : RegInv r) :
    WSManager.connect (WSManager.connect r m c) m c = WSManager.connect r m c
    ∧ (c ∉ WSManager.lookupSet r m → WSManager.disconnect r m c = r)
    ∧ WSManager.disconnect (WSManager.disconnect r m c) m c
        = WSManager.disconnect r m c := by
  refine ⟨WSManager.connect_idem m c r, fun hc => WSManager.disconnect_no_op m c h.2 hc, ?_⟩
  have h1 : RegInv (WSManager.disconnect r m c) := WSManager.regInv_disconnect h m c
  have h2 : c ∉ WSManager.lookupSet (WSManager.disconnect r m c) m := by
    rw [WSManager.lookupSet_disconnect m c h]
    intro hm
    exact absurd rfl ((WSManager.lookupSet_nodup m h).mem_erase_iff.mp hm).1
  exact WSManager.disconnect_no_op m c h1.2 h2

/-- Witness for C8 at a concrete registry. -/
theorem registry_register_unregister_idempotent_witness :
    RegInv [("MED-001A", [5])]
    ∧ (WSManager.connect (WSManager.connect [("MED-001A", [5])] "MED-001A" 7) "MED-001A" 7
        = WSManager.connect [("MED-001A", [5])] "MED-001A" 7
      ∧ (7 ∉ WSManager.lookupSet [("MED-001A", [5])] "MED-001A" →
          WSManager.disconnect [("MED-001A", [5])] "MED-001A" 7 = [("MED-001A", [5])])
      ∧ WSManager.disconnect
          (WSManager.disconnect [("MED-001A", [5])] "MED-001A" 7) "MED-001A" 7
          = WSManager.disconnect [("MED-001A", [5])] "MED-001A" 7) :=
  ⟨⟨by decide, by decide⟩,
    registry_register_unregister_idempotent [("MED-001A", [5])] "MED-001A" 7
      ⟨by decide, by decide⟩⟩

/-- **C4.** In every `broadcast` pass over the current snapshot, each
connection's delivery is attempted independently: the attempt trace covers the
whole snapshot in iteration order whatever each send's outcome, so a failing
connection never blocks the others; a connection whose send fails is
unregistered only after the pass completes and is absent from the meter's
snapshot afterwards, while one whose send succeeds remains registered.
`broadcast` is a total function into a normal result, so no delivery failure
propagates to its caller. -/
theorem broadcast_delivery_independent (sendOk : Conn → Bool) (r : Registry)
    (m : String) (h : RegInv r) :
    (WSManager.broadcast sendOk r m).1 =
      (WSManager.lookupSet r m).map (fun c => (c, sendOk c))
    ∧ (∀ c ∈ WSManager.lookupSet r m, sendOk c = false →
        c ∉ WSManager.lookupSet (WSManager.broadcast sendOk r m).2 m)
    ∧ (∀ c ∈ WSManager.lookupSet r m, sendOk c = true →
        c ∈ WSManager.lookupSet (WSManager.broadcast sendOk r m).2 m) := by
  by_cases hm : m ∈ WSManager.keys r
  · have hfst : (WSManager.broadcast sendOk r m).1 =
        (WSManager.lookupSet r m).map (fun c => (c, sendOk c)) := by
      simp only [WSManager.broadcast, if_pos hm]
      exact WSManager.broadcastPass_fst sendOk _
    have hsnd : (WSManager.broadcast sendOk r m).2 =
        ((WSManager.lookupSet r m).filter (fun c => !(sendOk c))).foldl
          (fun acc c => WSManager.disconnect acc m c) r := by
      simp only [WSManager.broadcast, if_pos hm, WSManager.broadcastPass_snd]
    have hlook : WSManager.lookupSet (WSManager.broadcast sendOk r m).2 m =
        ((WSManager.lookupSet r m).filter (fun c => !(sendOk c))).foldl
          List.erase (WSManager.lookupSet r m) := by
      rw [hsnd]
      exact WSManager.lookupSet_foldl_disconnect m _ r h
    refine ⟨hfst, ?_, ?_⟩
    · intro c hc hfail
      rw [hlook]
      exact WSManager.not_mem_foldl_erase _ (WSManager.lookupSet_nodup m h)
        (List.mem_filter.mpr ⟨hc, by simp [hfail]⟩)
    · intro c hc hok
      rw [hlook]
      refine WSManager.mem_foldl_erase _ (WSManager.lookupSet_nodup m h) hc ?_
      intro hmem
      have hbad := (List.mem_filter.mp hmem).2
      simp [hok] at hbad
  · have hempty := WSManager.lookupSet_eq_nil_of_not_mem_keys hm
    refine ⟨?_, ?_, ?_⟩
    · simp only [WSManager.broadcast, if_neg hm]
      simp [hempty]
    · intro c hc _
      rw [hempty] at hc
      cases hc
    · intro c hc _
      rw [hempty] at hc
      cases hc

/-- Witness for C4 at a concrete registry whose single subscriber's send
fails. -/
theorem broadcast_delivery_independent_witness :
    RegInv [("M", [5])]
    ∧ ((WSManager.broadcast (fun _ => false) [("M", [5])] "M").1 =
        (WSManager.lookupSet [("M", [5])] "M").map (fun c => (c, false))
      ∧ (∀ c ∈ WSManager.lookupSet [("M", [5])] "M", false = false →
          c ∉ WSManager.lookupSet
            (WSManager.broadcast (fun _ => false) [("M", [5])] "M").2 "M")
      ∧ (∀ c ∈ WSManager.lookupSet [("M", [5])] "M", false = true →
          c ∈ WSManager.lookupSet
            (WSManager.broadcast (fun _ => false) [("M", [5])] "M").2 "M")) :=
  ⟨⟨by decide, by decide⟩,
    broadcast_delivery_independent (fun _ => false) [("M", [5])] "M"
      ⟨by decide, by decide⟩⟩

theorem WSManager.mem_lookupSet_connect (m : String) (c : Conn) :
    ∀ r : Registry, c ∈ WSManager.lookupSet (WSManager.connect r m c) m := by
  intro r
  induction r with
  | nil => simp [WSManager.connect, WSManager.lookupSet]
  | cons q rest ih =>
    obtain ⟨k, s⟩ := q
    by_cases hk : k = m
    · subst hk
      simp [WSManager.connect, WSManager.lookupSet, WSManager.mem_setAdd]
    · simp [WSManager.connect, WSManager.lookupSet, hk, ih]

/-- **C5 counterexample.** The claim says the endpoint registers the
connection only after sending the initial snapshot event. On the concrete
open of meter "MED-002B" by connection 7, the send does not precede the
registration: `ws_manager.connect` registers the connection before
`send_json` runs. -/
theorem websocket_send_before_register_false :
    ¬ sendPrecedesRegister (websocket_endpoint 0 [] "MED-002B" 7).1 "MED-002B" 7 := by
  intro h
  have h12 := h ⟨1, by simp [websocket_endpoint]⟩ ⟨2, by simp [websocket_endpoint]⟩
  have hlt := h12 (by decide) (by decide)
  simp at hlt

/-- **C5 (amended).** On every live-channel open for a meter, the endpoint
accepts the connection and registers it in the Subscription Registry under
the meter identifier (both inside `ws_manager.connect`), and only after that
registration sends the initial zero-valued snapshot event; at the end of the
open sequence the connection is registered under the meter identifier. -/
theorem websocket_registers_before_send (now : Nat) (r : Registry) (m : String)
    (c : Conn) :
    registerPrecedesSend (websocket_endpoint now r m c).1 m c
    ∧ c ∈ WSManager.lookupSet (websocket_endpoint now r m c).2 m := by
  constructor
  · show registerPrecedesSend
      [WSAction.accept c, .register m c, .send c ⟨"connected", m, now, 0, 0, 0⟩] m c
    intro i j hi hj
    fin_cases i <;> fin_cases j <;>
      simp_all [isRegisterAct, isSendAct]
  · exact WSManager.mem_lookupSet_connect m c r

/-- **C6.** On every live-channel open for meter code `m`, the first event
delivered to the client carries status "connected", meter code `m`, zero
flow, zero liters delta, zero liters total, and the current server
timestamp. -/
theorem websocket_first_event_connected (now : Nat) (r : Registry) (m : String)
    (c : Conn) :
    firstSentTo c (websocket_endpoint now r m c).1 =
      some ⟨"connected", m, now, 0, 0, 0⟩ := by
  simp [websocket_endpoint, firstSentTo]

/-- **C10.** The live-channel endpoint never consults the meter or reading
store: for every database state — in particular one holding no Meter record
for the requested code — the open sequence accepts the connection, sends the
initial connected frame, and registers the connection under that code. -/
theorem websocket_no_store_check (db : DB) (now : Nat) (r : Registry)
    (m : String) (c : Conn) (_hm : findMeter db m = none) :
    (websocket_endpoint now r m c).1 =
      [.accept c, .register m c, .send c ⟨"connected", m, now, 0, 0, 0⟩]
    ∧ c ∈ WSManager.lookupSet (websocket_endpoint now r m c).2 m :=
  ⟨rfl, WSManager.mem_lookupSet_connect m c r⟩

/-- Witness for C10 at an empty database holding no meter at all. -/
theorem websocket_no_store_check_witness :
    findMeter ⟨[], []⟩ "MED-404" = none
    ∧ ((websocket_endpoint 0 [] "MED-404" 7).1 =
        [.accept 7, .register "MED-404" 7, .send 7 ⟨"connected", "MED-404", 0, 0, 0, 0⟩]
      ∧ 7 ∈ WSManager.lookupSet (websocket_endpoint 0 [] "MED-404" 7).2 "MED-404") :=
  ⟨rfl, websocket_no_store_check ⟨[], []⟩ 0 [] "MED-404" 7 rfl⟩

/-- **C1.** For every `ingest` call that passes the meter/pin check (and whose
sample fields coerce): if the persistence write fails, the whole operation
fails with the server-side storage error and the server state — registry
included — is returned unchanged, so `ws_manager.broadcast` is never invoked;
and whenever the call returns success, the persisted Reading is in the
durable store, i.e. the broadcast only ever runs after the durable write
(`db.add` + `db.commit`) has completed. -/
theorem ingest_no_broadcast_on_storage_failure
    (sendOk : Conn → Bool) (now : Nat) (w : World) (data : IngestPayload)
    (code : String) (meter : Meter) (f d t : PyNum)
    (hc : data.meter_code = some code)
    (hm : findMeter w.db code = some meter)
    (hp : data.pin = some meter.pin)
    (hf : pyFloat (getField data.flow_lps) = some f)
    (hd : pyFloat (getField data.liters_delta) = some d)
    (ht : pyFloat (getField data.liters_total) = some t) :
    ingest false sendOk now w data = (.error .storageError, w)
    ∧ IngestError.storageError.status = 500
    ∧ (∀ evt trace, (ingest true sendOk now w data).1 = .ok (evt, trace) →
        (⟨meter.id, f, d, t, now⟩ : Reading) ∈
          (ingest true sendOk now w data).2.db.readings) := by
  refine ⟨?_, rfl, ?_⟩
  · simp [ingest, hc, hm, hp, hf, hd, ht]
  · intro evt trace _
    simp [ingest, hc, hm, hp, hf, hd, ht]

/-- Witness for C1: a stored meter, a matching payload, and a failing
commit. -/
theorem ingest_no_broadcast_on_storage_failure_witness :
    (⟨some "MED-001A", some "1111", none, none, none⟩ : IngestPayload).meter_code
        = some "MED-001A"
    ∧ findMeter ⟨[⟨1, "MED-001A", "1111"⟩], []⟩ "MED-001A" = some ⟨1, "MED-001A", "1111"⟩
    ∧ (⟨some "MED-001A", some "1111", none, none, none⟩ : IngestPayload).pin
        = some (Meter.pin ⟨1, "MED-001A", "1111"⟩)
    ∧ (ingest false (fun _ => true) 0
          ⟨⟨[⟨1, "MED-001A", "1111"⟩], []⟩, [("MED-001A", [5])]⟩
          ⟨some "MED-001A", some "1111", none, none, none⟩ =
        (.error .storageError, ⟨⟨[⟨1, "MED-001A", "1111"⟩], []⟩, [("MED-001A", [5])]⟩)
      ∧ IngestError.storageError.status = 500
      ∧ (∀ evt trace,
          (ingest true (fun _ => true) 0
            ⟨⟨[⟨1, "MED-001A", "1111"⟩], []⟩, [("MED-001A", [5])]⟩
            ⟨some "MED-001A", some "1111", none, none, none⟩).1 = .ok (evt, trace) →
          (⟨1, 0, 0, 0, 0⟩ : Reading) ∈
            (ingest true (fun _ => true) 0
              ⟨⟨[⟨1, "MED-001A", "1111"⟩], []⟩, [("MED-001A", [5])]⟩
              ⟨some "MED-001A", some "1111", none, none, none⟩).2.db.readings)) :=
  ⟨rfl, rfl, rfl,
    ingest_no_broadcast_on_storage_failure (fun _ => true) 0
      ⟨⟨[⟨1, "MED-001A", "1111"⟩], []⟩, [("MED-001A", [5])]⟩
      ⟨some "MED-001A", some "1111", none, none, none⟩
      "MED-001A" ⟨1, "MED-001A", "1111"⟩ 0 0 0 rfl rfl rfl rfl rfl rfl⟩

/-- **C3.** Every `ingest` call whose payload names no stored meter, or
carries a pin different from the stored meter's pin, is rejected with the
authorization failure surfaced as HTTP 403, persists no Reading, and leaves
the whole server state — subscription registry included — unchanged. -/
theorem ingest_auth_failure_no_state_change (commitOk : Bool)
    (sendOk : Conn → Bool) (now : Nat) (w : World) (data : IngestPayload)
    (h : authCheck w.db data = false) :
    ingest commitOk sendOk now w data = (.error .authError, w)
    ∧ IngestError.authError.status = 403 := by
  refine ⟨?_, rfl⟩
  cases hc : data.meter_code with
  | none => simp [ingest, hc]
  | some code =>
    cases hm : findMeter w.db code with
    | none => simp [ingest, hc, hm]
    | some meter =>
      have hpin : data.pin ≠ some meter.pin := by
        intro hp
        simp only [authCheck, hc, hm, hp] at h
        simp at h
      simp [ingest, hc, hm, hpin]

/-- Witness for C3: a stored meter queried with the wrong pin. -/
theorem ingest_auth_failure_no_state_change_witness :
    authCheck ⟨[⟨1, "MED-001A", "1111"⟩], []⟩
        ⟨some "MED-001A", some "9999", none, none, none⟩ = false
    ∧ (ingest true (fun _ => true) 0
          ⟨⟨[⟨1, "MED-001A", "1111"⟩], []⟩, [("MED-001A", [5])]⟩
          ⟨some "MED-001A", some "9999", none, none, none⟩ =
        (.error .authError, ⟨⟨[⟨1, "MED-001A", "1111"⟩], []⟩, [("MED-001A", [5])]⟩)
      ∧ IngestError.authError.status = 403) :=
  ⟨by decide,
    ingest_auth_failure_no_state_change true (fun _ => true) 0
      ⟨⟨[⟨1, "MED-001A", "1111"⟩], []⟩, [("MED-001A", [5])]⟩
      ⟨some "MED-001A", some "9999", none, none, none⟩ (by decide)⟩

/-- **C7.** For every `ingest` call that passes authentication, each sample
field that is absent from the payload is defaulted to zero rather than
causing the call to fail — an absent field always coerces, to zero — and the
persisted Reading and broadcast event carry exactly the coerced values, hence
zero for every absent field. -/
theorem ingest_missing_fields_default_zero
    (sendOk : Conn → Bool) (now : Nat) (w : World) (data : IngestPayload)
    (code : String) (meter : Meter) (f d t : PyNum)
    (hc : data.meter_code = some code)
    (hm : findMeter w.db code = some meter)
    (hp : data.pin = some meter.pin)
    (hf : pyFloat (getField data.flow_lps) = some f)
    (hd : pyFloat (getField data.liters_delta) = some d)
    (ht : pyFloat (getField data.liters_total) = some t) :
    (data.flow_lps = none → f = 0)
    ∧ (data.liters_delta = none → d = 0)
    ∧ (data.liters_total = none → t = 0)
    ∧ ingest true sendOk now w data =
        (.ok (⟨code, f, d, t, now⟩, (WSManager.broadcast sendOk w.registry code).1),
         ⟨⟨w.db.meters, w.db.readings ++ [⟨meter.id, f, d, t, now⟩]⟩,
          (WSManager.broadcast sendOk w.registry code).2⟩) := by
  refine ⟨?_, ?_, ?_, ?_⟩
  · intro h0
    rw [h0] at hf
    simp [getField, pyFloat] at hf
    exact hf.symm
  · intro h0
    rw [h0] at hd
    simp [getField, pyFloat] at hd
    exact hd.symm
  · intro h0
    rw [h0] at ht
    simp [getField, pyFloat] at ht
    exact ht.symm
  · simp [ingest, hc, hm, hp, hf, hd, ht]

/-- Witness for C7: a payload with all three sample fields absent ingests
successfully, persisting and broadcasting zeros. -/
theorem ingest_missing_fields_default_zero_witness :
    pyFloat (getField (⟨some "MED-001A", some "1111", none, none, none⟩ :
        IngestPayload).flow_lps) = some 0
    ∧ ((((⟨some "MED-001A", some "1111", none, none, none⟩ :
          IngestPayload).flow_lps = none → (0 : PyNum) = 0)
      ∧ ((⟨some "MED-001A", some "1111", none, none, none⟩ :
          IngestPayload).liters_delta = none → (0 : PyNum) = 0)
      ∧ ((⟨some "MED-001A", some "1111", none, none, none⟩ :
          IngestPayload).liters_total = none → (0 : PyNum) = 0)
      ∧ ingest true (fun _ => true) 9
          ⟨⟨[⟨1, "MED-001A", "1111"⟩], []⟩, []⟩
          ⟨some "MED-001A", some "1111", none, none, none⟩ =
          (.ok (⟨"MED-001A", 0, 0, 0, 9⟩,
            (WSManager.broadcast (fun _ => true) [] "MED-001A").1),
           ⟨⟨[⟨1, "MED-001A", "1111"⟩], [⟨1, 0, 0, 0, 9⟩]⟩,
            (WSManager.broadcast (fun _ => true) [] "MED-001A").2⟩))) :=
  ⟨rfl,
    ingest_missing_fields_default_zero (fun _ => true) 9
      ⟨⟨[⟨1, "MED-001A", "1111"⟩], []⟩, []⟩
      ⟨some "MED-001A", some "1111", none, none, none⟩
      "MED-001A" ⟨1, "MED-001A", "1111"⟩ 0 0 0 rfl rfl rfl rfl rfl rfl⟩

/-- **C9.** For every `ingest` payload that passes the meter/pin check but
carries a sample value `float(...)` cannot coerce (for example a non-numeric
string), the handler raises before the Reading is constructed: the result is
the unhandled coercion error and the server state is returned unchanged — no
Reading is persisted and no broadcast occurs. The lenient defaulting covers
only missing fields, not malformed ones. -/
theorem ingest_malformed_field_rejected (commitOk : Bool)
    (sendOk : Conn → Bool) (now : Nat) (w : World) (data : IngestPayload)
    (code : String) (meter : Meter)
    (hc : data.meter_code = some code)
    (hm : findMeter w.db code = some meter)
    (hp : data.pin = some meter.pin)
    (hbad : pyFloat (getField data.flow_lps) = none
      ∨ pyFloat (getField data.liters_delta) = none
      ∨ pyFloat (getField data.liters_total) = none) :
    ingest commitOk sendOk now w data = (.error .coerceError, w) := by
  rcases hbad with hb | hb | hb
  · simp [ingest, hc, hm, hp, hb]
  · cases hF : pyFloat (getField data.flow_lps) with
    | none => simp [ingest, hc, hm, hp, hF]
    | some f => simp [ingest, hc, hm, hp, hF, hb]
  · cases hF : pyFloat (getField data.flow_lps) with
    | none => simp [ingest, hc, hm, hp, hF]
    | some f =>
      cases hD : pyFloat (getField data.liters_delta) with
      | none => simp [ingest, hc, hm, hp, hF, hD]
      | some d => simp [ingest, hc, hm, hp, hF, hD, hb]

/-- Witness for C9: a payload whose flow field is the non-numeric string
"abc" is rejected with the coercion error and changes nothing. -/
theorem ingest_malformed_field_rejected_witness :
    pyFloat (getField (⟨some "MED-001A", some "1111", some (.str "abc"), none,
        none⟩ : IngestPayload).flow_lps) = none
    ∧ ingest true (fun _ => true) 0
        ⟨⟨[⟨1, "MED-001A", "1111"⟩], []⟩, [("MED-001A", [5])]⟩
        ⟨some "MED-001A", some "1111", some (.str "abc"), none, none⟩ =
      (.error .coerceError,
        ⟨⟨[⟨1, "MED-001A", "1111"⟩], []⟩, [("MED-001A", [5])]⟩) :=
  ⟨rfl,
    ingest_malformed_field_rejected true (fun _ => true) 0
      ⟨⟨[⟨1, "MED-001A", "1111"⟩], []⟩, [("MED-001A", [5])]⟩
      ⟨some "MED-001A", some "1111", some (.str "abc"), none, none⟩
      "MED-001A" ⟨1, "MED-001A", "1111"⟩ rfl rfl rfl (Or.inl rfl)⟩
